import Mathlib

/-!
Shallow embedding of the sms-moneybot program (src/main.py): the SMS
parser, the sqlite-backed ledger operations, the pay-period resolution of
the wage command, and the chat handlers, together with theorems checking
the design-spec claims against this embedding.  Text is modelled as
List Char, machine reals/decimals as Rat, the database tables as Lean
lists, and Python exceptions as an explicit error type.
-/

namespace MoneyBot

/-- Python exception classes that the embedded code can raise. -/
inductive PyErr
  | attributeError
  | valueError
  | operationalError
  | typeError
deriving DecidableEq, Repr

/-- Decidable equality for Except results, so that concrete runs of the
embedded code can be checked by decide. -/
instance {ε α : Type} [DecidableEq ε] [DecidableEq α] : DecidableEq (Except ε α)
  | .error a, .error b => decidable_of_iff (a = b) (by simp)
  | .error _, .ok _ => isFalse (by simp)
  | .ok _, .error _ => isFalse (by simp)
  | .ok a, .ok b => decidable_of_iff (a = b) (by simp)

/-- A naive local date-time with minute precision, as produced by
datetime.strptime in parse_sms and by the datetime.datetime constructor
in the wage code. -/
structure DateTime where
  year : Int
  month : Int
  day : Int
  hour : Int
  minute : Int
deriving DecidableEq, Repr

/-- Chronological comparison of two date-times.  The sqlite store keeps
date_time as the fixed-width ISO text YYYY-MM-DD HH:MM:SS and BETWEEN
compares that text lexicographically, which on this format is exactly the
lexicographic order on the (year, month, day, hour, minute) tuple. -/
def dtLeB (a b : DateTime) : Bool :=
  if a.year ≠ b.year then a.year < b.year
  else if a.month ≠ b.month then a.month < b.month
  else if a.day ≠ b.day then a.day < b.day
  else if a.hour ≠ b.hour then a.hour < b.hour
  else a.minute ≤ b.minute

/-- Strict version of dtLeB, used only to state the spec-side half-open
window for comparison. -/
def dtLtB (a b : DateTime) : Bool :=
  dtLeB a b && !(a == b)

/-- The character class of the regex token [A-Z]. -/
def isUpperAZ (c : Char) : Bool := 'A' ≤ c && c ≤ 'Z'

/-- The character class of the regex token \d (modelled on ASCII digits,
the only digits the grammar's tokens produce). -/
def isDig (c : Char) : Bool := c.isDigit

/-- Numeric value of a digit character. -/
def dval (c : Char) : Nat := c.toNat - '0'.toNat

/-- Value of a two-digit field of the date-time group. -/
def dd (x y : Char) : Nat := 10 * dval x + dval y

/-- Value of a digit run. -/
def natOf (l : List Char) : Nat := l.foldl (fun a c => 10 * a + dval c) 0

/-- Matches exactly n consecutive characters of class p, as the regex
pieces [A-Z]{4} and \d{4} do; returns the matched run and the rest. -/
def takeCount (p : Char → Bool) : Nat → List Char → Option (List Char × List Char)
  | 0, l => some ([], l)
  | _ + 1, [] => none
  | n + 1, c :: t =>
    if p c then (takeCount p n t).map (fun q => (c :: q.1, q.2)) else none

/-- Matches the regex group (\d{2}\.\d{2}\.\d{2}\ \d{2}:\d{2}) of
parse_sms (src/main.py:61) and returns the five two-digit fields
(day, month, year, hour, minute) together with the rest of the input. -/
def matchDT : List Char → Option ((Nat × Nat × Nat × Nat × Nat) × List Char)
  | a1 :: a2 :: '.' :: b1 :: b2 :: '.' :: c1 :: c2 :: ' ' :: e1 :: e2 :: ':' :: f1 :: f2 :: rest =>
    if isDig a1 && isDig a2 && isDig b1 && isDig b2 && isDig c1 && isDig c2 &&
       isDig e1 && isDig e2 && isDig f1 && isDig f2 then
      some ((dd a1 a2, dd b1 b2, dd c1 c2, dd e1 e2, dd f1 f2), rest)
    else none
  | _ => none

/-- The literal keyword of the grammar (src/main.py:63). -/
def kwL : List Char := ['з', 'а', 'р', 'п', 'л', 'а', 'т', 'ы']

/-- True when the keyword occurs at offset i and only non-digits stand
before it, i.e. when the greedy \D* of the pattern can reach offset i. -/
def isKwAt (l : List Char) (i : Nat) : Bool :=
  kwL.isPrefixOf (l.drop i) && (l.take i).all (fun c => !isDig c)

/-- Offset chosen by the greedy backtracking of \D* before the keyword:
the rightmost admissible occurrence.  (All admissible occurrences lie
inside the maximal digit-free prefix, so they agree on whether a digit
follows and on the digit run that the amount group then captures.) -/
def lastKwPos (l : List Char) : Option Nat :=
  (List.range (l.length + 1)).reverse.find? (fun i => isKwAt l i)

/-- Matches the tail \D*зарплаты\D*(\d+\.*\d*) of the pattern
(src/main.py:62-65) and returns the amount group split into its digit
run, dot run and trailing digit run. -/
def tailMatch (r : List Char) : Option (List Char × List Char × List Char) :=
  match lastKwPos r with
  | none => none
  | some i =>
    let rest := (r.drop (i + 8)).dropWhile (fun c => !isDig c)
    let d1 := rest.takeWhile isDig
    if d1.isEmpty then none
    else
      let r5 := rest.drop d1.length
      let dots := r5.takeWhile (fun c => c == '.')
      let d2 := (r5.drop dots.length).takeWhile isDig
      some (d1, dots, d2)

/-- Attempts the whole pattern of parse_sms at the start of l, returning
the three groups: card, date-time fields, amount parts. -/
def matchAt (l : List Char) :
    Option (List Char × (Nat × Nat × Nat × Nat × Nat) × (List Char × List Char × List Char)) :=
  (takeCount isUpperAZ 4 l).bind fun pU =>
  (takeCount isDig 4 pU.2).bind fun pD =>
  let sp := pD.2.takeWhile (fun c => c == ' ')
  if sp.isEmpty then none else
  (matchDT (pD.2.drop sp.length)).bind fun pT =>
  (tailMatch pT.2).map fun amt =>
  (pU.1 ++ pD.1, pT.1, amt)

/-- re.search: try the pattern at every start offset, leftmost first. -/
def search : List Char →
    Option (List Char × (Nat × Nat × Nat × Nat × Nat) × (List Char × List Char × List Char))
  | [] => matchAt []
  | l@(_ :: t) => (matchAt l).orElse (fun _ => search t)

/-- Two-digit year pivot of strptime's %y directive. -/
def toYear (yy : Nat) : Nat := if yy ≤ 68 then 2000 + yy else 1900 + yy

/-- Length of a calendar month, with leap years, as Python's datetime
validates it. -/
def daysInMonth (y m : Int) : Int :=
  if m = 2 then (if y % 4 = 0 ∧ (y % 100 ≠ 0 ∨ y % 400 = 0) then 29 else 28)
  else if m = 4 ∨ m = 6 ∨ m = 9 ∨ m = 11 then 30
  else 31

/-- datetime.strptime(s, "%d.%m.%y %H:%M") on the matched date-time
group: builds the date-time or raises ValueError when the literal fields
do not form a valid calendar date-time. -/
def checkDT (d mo yy hh mi : Nat) : Except PyErr DateTime :=
  if 1 ≤ mo ∧ mo ≤ 12 ∧ 1 ≤ d ∧ (d : Int) ≤ daysInMonth (toYear yy) mo ∧ hh ≤ 23 ∧ mi ≤ 59
  then .ok ⟨toYear yy, mo, d, hh, mi⟩ else .error .valueError

/-- float() on the amount group.  The group is digits, then dots, then
digits; float accepts at most one dot and raises ValueError otherwise.
The value is the exact decimal d1.d2, built with mkRat so that concrete
runs reduce. -/
def floatVal (d1 dots d2 : List Char) : Except PyErr ℚ :=
  if dots.length ≤ 1 then
    .ok (mkRat (natOf d1 * 10 ^ d2.length + natOf d2) (10 ^ d2.length))
  else .error .valueError

/-- Parsed fields of one accepted SMS. -/
structure Sms where
  card : List Char
  dt : DateTime
  amount : ℚ
deriving DecidableEq, Repr

/-- Transcribes parse_sms (src/main.py:48-74): regex search for card,
date-time, keyword and amount; a failed search is an AttributeError
(.groups() on None), then strptime runs on the date-time group and float
on the amount group, either of which can raise ValueError. -/
def parse_sms (text : List Char) : Except PyErr Sms :=
  match search text with
  | none => .error .attributeError
  | some (card, (d, mo, yy, hh, mi), (d1, dots, d2)) => do
    let dt ← checkDT d mo yy hh mi
    let amt ← floatVal d1 dots d2
    pure ⟨card, dt, amt⟩

/-- One row of the data table (src/main.py:98-105). -/
structure Row where
  chatId : Int
  name : List Char
  card : List Char
  dt : DateTime
  amount : ℚ
deriving DecidableEq, Repr

/-- The three tables of data.db (src/main.py:94-116). -/
structure DB where
  data : List Row
  ignored : List (Int × List Char)
  notified : List (Int × Int)
deriving DecidableEq, Repr

/-- Transcribes show_ignored_cards (src/main.py:164-167). -/
def show_ignored_cards (db : DB) (cid : Int) : List (List Char) :=
  (db.ignored.filter (fun p => p.1 == cid)).map (fun p => p.2)

/-- Transcribes to_notify (src/main.py:176-179). -/
def to_notify (db : DB) (cid : Int) : List Int :=
  (db.notified.filter (fun p => p.1 == cid)).map (fun p => p.2)

/-- The tuple bound by both insert_transaction and new_transaction. -/
def mkRow (cid : Int) (un : List Char) (p : Sms) : Row :=
  ⟨cid, un, p.card, p.dt, p.amount⟩

/-- Transcribes insert_transaction (src/main.py:119-127): INSERT OR
IGNORE against the UNIQUE(chat_id, name, card, date_time, amount)
constraint, i.e. append unless the identical tuple is present. -/
def insert_transaction (db : DB) (cid : Int) (un : List Char) (p : Sms) : DB :=
  if mkRow cid un p ∈ db.data then db
  else { db with data := db.data ++ [mkRow cid un p] }

/-- A WHERE clause as written in the source: a list of column tests
joined either by AND (valid sqlite) or by commas, which sqlite's
expression grammar rejects with a syntax error. -/
inductive SqlConds
  | sepAnd (cs : List (Row → Bool))
  | sepComma (cs : List (Row → Bool))

/-- Executes SELECT COUNT(*) FROM data WHERE ... : a comma-joined
condition list is a sqlite syntax error, raised by cursor.execute as
OperationalError before any row is fetched. -/
def runCountData (data : List Row) : SqlConds → Except PyErr Nat
  | .sepAnd cs => .ok (data.countP (fun r => cs.all (fun c => c r)))
  | .sepComma _ => .error .operationalError

/-- Transcribes new_transaction (src/main.py:130-139).  Its query reads
"SELECT COUNT(*) FROM data WHERE chat_id=:id, name=:name, card=:card,
date_time=:datetime, amount=:amount": the WHERE conditions are joined by
commas, not AND, so the statement is malformed and execute raises. -/
def new_transaction (db : DB) (cid : Int) (un : List Char) (p : Sms) : Except PyErr Bool :=
  (runCountData db.data (.sepComma
      [fun r => r.chatId == cid, fun r => r.name == un, fun r => r.card == p.card,
       fun r => r.dt == p.dt, fun r => r.amount == p.amount])).map
    (fun n => if n > 0 then false else true)

/-- Transcribes wage_calc (src/main.py:216-222): SUM(amount) over the
owner's rows with date_time BETWEEN start and end (BETWEEN is inclusive
at both ends), NULL (no rows) and a zero sum both collapsing to 0. -/
def wage_calc (data : List Row) (cid : Int) (sd ed : DateTime) : ℚ :=
  let rows := data.filter (fun r => r.chatId == cid && dtLeB sd r.dt && dtLeB r.dt ed)
  let sum_ : Option ℚ := if rows.isEmpty then none else some ((rows.map Row.amount).sum)
  match sum_ with
  | none => 0
  | some v => if v = 0 then 0 else v

/-- Follows the spec's words for sum_amount, for comparison with
wage_calc: sum of amounts with timestamp in the half-open window
[start, end), a timestamp exactly equal to end being excluded. -/
def sum_amount_spec (data : List Row) (cid : Int) (sd ed : DateTime) : ℚ :=
  ((data.filter (fun r => r.chatId == cid && dtLeB sd r.dt && dtLtB r.dt ed)).map
    Row.amount).sum

/-- Closed-interval sum used to state what wage_calc actually computes. -/
def sum_amount_incl (data : List Row) (cid : Int) (sd ed : DateTime) : ℚ :=
  ((data.filter (fun r => r.chatId == cid && dtLeB sd r.dt && dtLeB r.dt ed)).map
    Row.amount).sum

/-- Transcribes purge_all (src/main.py:225-227): DELETE FROM data. -/
def purge_all (db : DB) : DB := { db with data := [] }

/-- Transcribes chatid_from_name (src/main.py:235-241).  With no
matching row, cursor.fetchone() returns None, so fetchone()[0] raises
TypeError; the surrounding except clause catches only IndexError, so the
TypeError escapes. -/
def chatid_from_name (db : DB) (user : List Char) : Except PyErr (Option Int) :=
  match (db.data.filter (fun r => r.name == user)).head? with
  | some r => .ok (some r.chatId)
  | none => .error .typeError

/-- Transcribes name_from_chatid (src/main.py:244-250).  On a match it
evaluates fetchone()[0][0], the first character of the name (an empty
name raises IndexError, caught and turned into None); with no matching
row fetchone() is None and None[0] raises TypeError, uncaught. -/
def name_from_chatid (db : DB) (cid : Int) : Except PyErr (Option (List Char)) :=
  match (db.data.filter (fun r => r.chatId == cid)).head? with
  | some r =>
    match r.name with
    | [] => .ok none
    | c :: _ => .ok (some [c])
  | none => .error .typeError

/-- Transcribes purge_user (src/main.py:230-232). -/
def purge_user (db : DB) (cid : Int) : DB :=
  { db with data := db.data.filter (fun r => !(r.chatId == cid)) }

/-- datetime.datetime(y, m, d): builds the date or raises ValueError
when the fields are out of range (month outside 1..12, day outside the
month, year outside datetime's 1..9999). -/
def mkDT (y m d : Int) : Except PyErr DateTime :=
  if 1 ≤ y ∧ y ≤ 9999 ∧ 1 ≤ m ∧ m ≤ 12 ∧ 1 ≤ d ∧ d ≤ daysInMonth y m
  then .ok ⟨y, m, d, 0, 0⟩ else .error .valueError

/-- Python int(s) on a token: optional sign then a digit run, ValueError
otherwise (the validators turn that into False). -/
def digitsVal (l : List Char) : Option Int :=
  if l ≠ [] ∧ l.all isDig then some (natOf l : Int) else none

/-- Signed integer literal parse used by int(). -/
def pyIntQ (s : String) : Option Int :=
  match s.toList with
  | '-' :: t => (digitsVal t).map (fun n => -n)
  | '+' :: t => digitsVal t
  | t => digitsVal t

/-- int() where the caller has already validated the token: a failed
parse raises ValueError. -/
def pyIntE (s : String) : Except PyErr Int :=
  match pyIntQ s with
  | some n => .ok n
  | none => .error .valueError

/-- Transcribes is_month (src/main.py:427-431): any integer strictly
between 0 and 32, False on non-numeric input. -/
def is_month (s : String) : Bool :=
  match pyIntQ s with
  | some n => 0 < n && n < 32
  | none => false

/-- Transcribes is_year (src/main.py:433-437). -/
def is_year (s : String) : Bool :=
  match pyIntQ s with
  | some n => 1999 < n && n < 2051
  | none => false

/-- Transcribes the zero-argument branch of wage_template
(src/main.py:490-499): month is the current month when now.day exceeds
the cutoff and the previous month otherwise; only month value 1 wraps
into December of the previous year, every other value (including 0) goes
straight into the datetime constructor. -/
def currentPeriod (now : DateTime) (D : Int) : Except PyErr (DateTime × DateTime) :=
  let month : Int := if now.day > D then now.month else now.month - 1
  if month = 1 then do
    let s ← mkDT (now.year - 1) 12 D
    let e ← mkDT now.year month D
    pure (s, e)
  else do
    let s ← mkDT now.year (month - 1) D
    let e ← mkDT now.year month D
    pure (s, e)

/-- The explicit-month window of wage_template, shared verbatim by its
two-token branch (src/main.py:450-458) and its one-token month branch
(src/main.py:460-468): December is special-cased, every other month m
yields datetime(year, m-1, D) .. datetime(year, m, D). -/
def monthWindow (year month D : Int) : Except PyErr (DateTime × DateTime) :=
  if month = 12 then do
    let s ← mkDT year 12 D
    let e ← mkDT (year + 1) 1 D
    pure (s, e)
  else do
    let s ← mkDT year (month - 1) D
    let e ← mkDT year month D
    pure (s, e)

/-- The shapes a wage query can resolve to. -/
inductive PeriodOut
  | badFormat
  | window (s e : DateTime)
  | yearly (months : List (DateTime × DateTime)) (total : DateTime × DateTime)
deriving DecidableEq, Repr

/-- Transcribes the period resolution of wage_template
(src/main.py:440-499): argument validation, the two-token and one-token
windows, the twelve-windows-plus-total year shape, and the zero-token
current period. -/
def wage_period (args : List String) (now : DateTime) (D : Int) : Except PyErr PeriodOut :=
  let ok2 := args.length == 2 && is_month (args.getD 0 "") && is_year (args.getD 1 "")
  let ok1 := args.length == 1 && (is_month (args.getD 0 "") || is_year (args.getD 0 ""))
  if !ok2 && !ok1 && args.length != 0 then .ok .badFormat
  else if args.length == 2 then do
    let month ← pyIntE (args.getD 0 "")
    let year ← pyIntE (args.getD 1 "")
    let w ← monthWindow year month D
    pure (.window w.1 w.2)
  else if args.length == 1 then
    if is_month (args.getD 0 "") then do
      let month ← pyIntE (args.getD 0 "")
      let w ← monthWindow now.year month D
      pure (.window w.1 w.2)
    else do
      let year ← pyIntE (args.getD 0 "")
      let ms ← (List.range' 1 11).mapM (fun m => do
        let s ← mkDT year (m : Int) D
        let e ← mkDT year ((m : Int) + 1) D
        pure ((s, e) : DateTime × DateTime))
      let sDec ← mkDT year 12 D
      let eDec ← mkDT (year + 1) 1 D
      let sTot ← mkDT year 1 D
      let eTot ← mkDT (year + 1) 1 D
      pure (.yearly (ms ++ [(sDec, eDec)]) (sTot, eTot))
  else do
    let w ← currentPeriod now D
    pure (.window w.1 w.2)

/-- Messages the sms handler can send (text payloads kept only where a
claim mentions them). -/
inductive Msg
  | unableToParse
  | ignoredWarn
  | alreadyExists
  | added
  | notifyMsg (recipient : Int) (username text : List Char)
  | wageSoFar (amount : ℚ)
  | wageThatMonth (amount : ℚ)
deriving DecidableEq, Repr

/-- Result of one handler run: the messages it sent in order, the
database afterwards, and the exception escaping it, if any. -/
structure SmsOut where
  msgs : List Msg
  db : DB
  err : Option PyErr
deriving DecidableEq, Repr

/-- Date equality used by the sms handler's report branch
(src/main.py:311). -/
def dateEq (a b : DateTime) : Bool :=
  a.year == b.year && a.month == b.month && a.day == b.day

/-- Transcribes the running-total report of the sms handler
(src/main.py:311-326).  Neither branch guards month against 1 before
calling the datetime constructor, so either can raise ValueError. -/
def smsWageReport (db : DB) (cid : Int) (p : Sms) (nowDT : DateTime) (D : Int) :
    List Msg × Option PyErr :=
  if dateEq p.dt nowDT then
    let mo : Int := if nowDT.day > D then nowDT.month else nowDT.month - 1
    match mkDT nowDT.year (mo - 1) D with
    | .error er => ([], some er)
    | .ok s =>
      match mkDT nowDT.year mo D with
      | .error er => ([], some er)
      | .ok e => ([.wageSoFar (wage_calc db.data cid s e)], none)
  else
    let mo : Int := if p.dt.day > D then p.dt.month else p.dt.month - 1
    match mkDT p.dt.year (mo - 1) D with
    | .error er => ([], some er)
    | .ok s =>
      match mkDT p.dt.year mo D with
      | .error er => ([], some er)
      | .ok e => ([.wageThatMonth (wage_calc db.data cid s e)], none)

/-- Transcribes the sms handler (src/main.py:277-326): parse (only
AttributeError is caught), warn on an ignored card without suppressing,
duplicate check, insert, notification fan-out, running-total report.  An
exception from any uncaught step aborts the handler, keeping the
messages already sent and the database state reached so far. -/
def sms (db : DB) (cid : Int) (un text : List Char) (nowDT : DateTime) (D : Int) : SmsOut :=
  match parse_sms text with
  | .error .attributeError => ⟨[.unableToParse], db, none⟩
  | .error e => ⟨[], db, some e⟩
  | .ok p =>
    let warn : List Msg :=
      if p.card ∈ show_ignored_cards db cid then [.ignoredWarn] else []
    match new_transaction db cid un p with
    | .error e => ⟨warn, db, some e⟩
    | .ok isNew =>
      if !isNew then ⟨warn ++ [.alreadyExists], db, none⟩
      else
        let db2 := insert_transaction db cid un p
        let notif := (to_notify db2 cid).map (fun r => Msg.notifyMsg r un text)
        let rep := smsWageReport db2 cid p nowDT D
        ⟨warn ++ [.added] ++ notif ++ rep.1, db2, rep.2⟩

/-- str.split(",") on a line, as csv_parse applies it
(src/main.py:352). -/
def splitComma : List Char → List (List Char)
  | [] => [[]]
  | c :: t =>
    match splitComma t with
    | [] => [[]]
    | h :: r => if c = ',' then [] :: h :: r else (c :: h) :: r

/-- The last comma-separated field of a CSV line, the part csv_parse
feeds to parse_sms. -/
def lastField (l : List Char) : List Char := (splitComma l).getLastD []

/-- Counters of the CSV batch loop together with the database: i parsed,
j total, k ignored (src/main.py:349). -/
structure CsvSt where
  db : DB
  i : Nat
  j : Nat
  k : Nat
deriving DecidableEq, Repr

/-- Transcribes one iteration of the csv_parse loop
(src/main.py:350-362): parse the last field; AttributeError is passed
over (only the total counter moves, via finally); an accepted card is
inserted while an ignored one bumps k; every parsed line bumps i; any
other exception escapes, aborting the whole batch. -/
def csvLine (cid : Int) (un : List Char) (st : CsvSt) (line : List Char) : Except PyErr CsvSt :=
  match parse_sms (lastField line) with
  | .error .attributeError => .ok { st with j := st.j + 1 }
  | .error e => .error e
  | .ok p =>
    if p.card ∉ show_ignored_cards st.db cid then
      .ok { st with db := insert_transaction st.db cid un p, i := st.i + 1, j := st.j + 1 }
    else
      .ok { st with k := st.k + 1, i := st.i + 1, j := st.j + 1 }

/-- Transcribes the whole csv_parse loop over the downloaded lines. -/
def csvRun (cid : Int) (un : List Char) (lines : List (List Char)) (st : CsvSt) :
    Except PyErr CsvSt :=
  lines.foldlM (csvLine cid un) st

/-- The confirmation token of the purge-database keyboard
(src/main.py:396). -/
def dropTok : List Char := ['D', 'R', 'O', 'P', 'D', 'B']

/-- Outcome of the purgedb command for the calling user. -/
inductive PromptOut
  | refused
  | confirmPrompt
deriving DecidableEq, Repr

/-- Transcribes purge_db (src/main.py:394-401), wrapped by the
restricted decorator (src/main.py:258-267): a non-admin caller gets only
a refusal message and no confirmation keyboard. -/
def purge_db_cmd (adminList : List Int) (userId : Int) : PromptOut :=
  if userId ∈ adminList then .confirmPrompt else .refused

/-- Transcribes purgedb_commence (src/main.py:629-636).  The handler
carries no restricted decorator: it looks only at the callback token,
never at the admin list or at who pressed the button. -/
def purgedb_commence (adminList : List Int) (userId : Int) (db : DB) (queryData : List Char) :
    DB :=
  if queryData = dropTok then purge_all db else db

/-- Calendar subtraction of whole months, wrapping year boundaries; used
to state what window the zero-token wage query actually resolves. -/
def monthSub (y m : Int) : Nat → Int × Int
  | 0 => (y, m)
  | k + 1 =>
    let p := monthSub y m k
    if p.2 = 1 then (p.1 - 1, 12) else (p.1, p.2 - 1)

/-- True when a CSV line's last field parses. -/
def lineParsed (l : List Char) : Bool :=
  match parse_sms (lastField l) with
  | .ok _ => true
  | .error _ => false

/-- True when a CSV line's last field parses and its card is in the
given ignored set. -/
def lineIgnored (ig : List (List Char)) (l : List Char) : Bool :=
  match parse_sms (lastField l) with
  | .ok q => decide (q.card ∈ ig)
  | .error _ => false

/-! Helper lemmas about list scanning, shared by the claim proofs. -/

theorem takeCount_append (p : Char → Bool) (xs ys : List Char) (n : Nat)
    (hl : xs.length = n) (hp : xs.all p = true) :
    takeCount p n (xs ++ ys) = some (xs, ys) := by
  induction xs generalizing n with
  | nil => subst hl; rfl
  | cons c t ih =>
    subst hl
    simp only [List.all_cons, Bool.and_eq_true] at hp
    simp [takeCount, hp.1, ih t.length rfl hp.2]

theorem takeWhile_append_all (p : Char → Bool) (xs ys : List Char)
    (hp : xs.all p = true) (hy : ∀ c, ys.head? = some c → p c = false) :
    (xs ++ ys).takeWhile p = xs := by
  induction xs with
  | nil =>
    cases ys with
    | nil => rfl
    | cons c t => simp [List.takeWhile, hy c rfl]
  | cons c t ih =>
    simp only [List.all_cons, Bool.and_eq_true] at hp
    simp [List.takeWhile, hp.1, ih hp.2]

theorem dropWhile_append_all (p : Char → Bool) (xs ys : List Char)
    (hp : xs.all p = true) (hy : ∀ c, ys.head? = some c → p c = false) :
    (xs ++ ys).dropWhile p = ys := by
  induction xs with
  | nil =>
    cases ys with
    | nil => rfl
    | cons c t => simp [List.dropWhile, hy c rfl]
  | cons c t ih =>
    simp only [List.all_cons, Bool.and_eq_true] at hp
    simp [List.dropWhile, hp.1, ih hp.2]

theorem length_takeWhile_ge (p : Char → Bool) (l : List Char) (n : Nat)
    (h : (l.take n).all p = true) : min n l.length ≤ (l.takeWhile p).length := by
  induction l generalizing n with
  | nil => simp
  | cons c t ih =>
    cases n with
    | zero => simp
    | succ m =>
      simp only [List.take, List.all_cons, Bool.and_eq_true] at h
      simp only [List.takeWhile, h.1, List.length_cons, List.length]
      have := ih m h.2
      omega

theorem all_drop (p : Char → Bool) (l : List Char) (n : Nat)
    (h : l.all p = true) : (l.drop n).all p = true := by
  rw [List.all_eq_true] at h ⊢
  exact fun x hx => h x (List.mem_of_mem_drop hx)

theorem mkRat_decimal (a b k : Nat) :
    mkRat (a * 10 ^ k + b) (10 ^ k) = (a : ℚ) + (b : ℚ) / 10 ^ k := by
  have h10 : ((10 : ℚ) ^ k) ≠ 0 := by positivity
  rw [Rat.mkRat_eq_div]
  push_cast
  field_simp

theorem dig_ne_dot (c : Char) (h : isDig c = true) : (c == '.') = false := by
  cases hbe : c == '.' with
  | false => rfl
  | true =>
    have : c = '.' := by simpa using hbe
    subst this
    simp [isDig] at h

theorem dig_ne_space (c : Char) (h : isDig c = true) : (c == ' ') = false := by
  cases hbe : c == ' ' with
  | false => rfl
  | true =>
    have : c = ' ' := by simpa using hbe
    subst this
    simp [isDig] at h

theorem nd_false_of_dig (c : Char) (h : isDig c = true) : (!isDig c) = false := by
  simp [h]

/-- The greedy keyword scan succeeds whenever any admissible occurrence
exists. -/
theorem lastKwPos_found (l : List Char) (i0 : Nat)
    (h : isKwAt l i0 = true) (hle : i0 ≤ l.length) :
    ∃ j, lastKwPos l = some j ∧ isKwAt l j = true := by
  have hmem : i0 ∈ (List.range (l.length + 1)).reverse := by
    rw [List.mem_reverse, List.mem_range]; omega
  have hsome : ((List.range (l.length + 1)).reverse.find? (fun i => isKwAt l i)).isSome := by
    rw [List.find?_isSome]; exact ⟨i0, hmem, h⟩
  obtain ⟨j, hj⟩ := Option.isSome_iff_exists.mp hsome
  exact ⟨j, hj, List.find?_some hj⟩

/-- Behaviour of the \D*зарплаты\D*(\d+\.*\d*) tail on an input made of
a digit-free region containing the keyword followed by a leading digit
run: whichever admissible occurrence the greedy scan settles on, the
amount group starts at the first digit. -/
theorem tailMatch_core (n1 n2 ad1 Z : List Char)
    (hn1 : n1.all (fun c => !isDig c) = true)
    (hn2 : n2.all (fun c => !isDig c) = true)
    (ha1ne : ad1 ≠ []) (ha1 : ad1.all isDig = true)
    (hZ : ∀ c, Z.head? = some c → isDig c = false) :
    tailMatch ((n1 ++ kwL ++ n2) ++ (ad1 ++ Z)) =
      some (ad1, Z.takeWhile (fun c => c == '.'),
            (Z.drop (Z.takeWhile (fun c => c == '.')).length).takeWhile isDig) := by
  set P : List Char := n1 ++ kwL ++ n2 with hPdef
  set R4 : List Char := P ++ (ad1 ++ Z) with hR4def
  obtain ⟨a, ad1t, rfl⟩ : ∃ a t, ad1 = a :: t := by
    cases ad1 with
    | nil => exact absurd rfl ha1ne
    | cons a t => exact ⟨a, t, rfl⟩
  have hadig : isDig a = true := by
    simp only [List.all_cons, Bool.and_eq_true] at ha1
    exact ha1.1
  have hkwall : kwL.all (fun c => !isDig c) = true := by decide
  have hPall : P.all (fun c => !isDig c) = true := by
    rw [hPdef]
    simp [List.all_append, hn1, hn2, hkwall]
  have hADhead : ∀ c, ((a :: ad1t) ++ Z).head? = some c → (!isDig c) = false := by
    intro c hc
    simp only [List.cons_append, List.head?_cons, Option.some.injEq] at hc
    subst hc
    exact nd_false_of_dig a hadig
  -- an admissible occurrence of the keyword at offset n1.length
  have hocc : isKwAt R4 n1.length = true := by
    have hdrop : R4.drop n1.length = kwL ++ (n2 ++ ((a :: ad1t) ++ Z)) := by
      rw [hR4def, hPdef]
      simp only [List.append_assoc]
      exact List.drop_left n1 _
    have htake : R4.take n1.length = n1 := by
      rw [hR4def, hPdef]
      simp only [List.append_assoc]
      exact List.take_left n1 _
    unfold isKwAt
    rw [hdrop, htake]
    simp [ List.isPrefixOf_iff_prefix, List.prefix_append, hn1]
  have hlen0 : n1.length ≤ R4.length := by
    rw [hR4def, hPdef]
    simp only [List.append_assoc, List.length_append]
    omega
  obtain ⟨j, hfind, hjat⟩ := lastKwPos_found R4 n1.length hocc hlen0
  simp only [isKwAt, Bool.and_eq_true] at hjat
  have hpre : kwL.isPrefixOf (R4.drop j) = true := hjat.1
  have htakj : (R4.take j).all (fun c => !isDig c) = true := hjat.2
  obtain ⟨t, ht⟩ : ∃ t, R4.drop j = kwL ++ t := by
    rw [ List.isPrefixOf_iff_prefix] at hpre
    obtain ⟨t, ht⟩ := hpre
    exact ⟨t, ht.symm⟩
  have hjle : j ≤ R4.length := by
    by_contra hcon
    have : R4.drop j = [] := List.drop_of_length_le (by omega)
    rw [this] at ht
    simp [kwL] at ht
  have hlen8 : j + 8 ≤ R4.length := by
    have hld : (R4.drop j).length = R4.length - j := List.length_drop j R4
    rw [ht] at hld
    simp only [List.length_append] at hld
    have : kwL.length = 8 := by decide
    omega
  have htake8 : (R4.take (j + 8)).all (fun c => !isDig c) = true := by
    rw [List.take_add]
    rw [List.all_append]
    rw [Bool.and_eq_true]
    refine ⟨htakj, ?_⟩
    rw [ht]
    have h8 : (8 : Nat) = kwL.length := by decide
    rw [h8, List.take_left]
    exact hkwall
  have hTW : R4.takeWhile (fun c => !isDig c) = P := by
    rw [hR4def]
    exact takeWhile_append_all _ P _ hPall hADhead
  have hjP : j + 8 ≤ P.length := by
    have hmin := length_takeWhile_ge (fun c => !isDig c) R4 (j + 8) htake8
    rw [hTW] at hmin
    omega
  have hdropj8 : R4.drop (j + 8) = P.drop (j + 8) ++ ((a :: ad1t) ++ Z) := by
    rw [hR4def]
    exact List.drop_append_of_le_length hjP
  have hPdropall : (P.drop (j + 8)).all (fun c => !isDig c) = true :=
    all_drop _ P _ hPall
  have hrest : (R4.drop (j + 8)).dropWhile (fun c => !isDig c) = (a :: ad1t) ++ Z := by
    rw [hdropj8]
    exact dropWhile_append_all _ _ _ hPdropall hADhead
  have hd1 : ((a :: ad1t) ++ Z).takeWhile isDig = a :: ad1t := by
    refine takeWhile_append_all _ _ _ ha1 ?_
    intro c hc
    exact hZ c hc
  have hd1ne : (a :: ad1t).isEmpty = false := rfl
  have hdropd1 : ((a :: ad1t) ++ Z).drop (a :: ad1t).length = Z := List.drop_left _ _
  unfold tailMatch lastKwPos
  rw [show ((List.range (R4.length + 1)).reverse.find? (fun i => isKwAt R4 i)) = some j from hfind]
  simp only [hrest, hd1, hd1ne, hdropd1, Bool.false_eq_true, if_false]

/-- The tail of the pattern on a fully structured input: digit-free
noise, the keyword, digit-free noise, then an amount token digits-dots-
digits, then a suffix opening with neither a digit nor a dot. -/
theorem tailMatch_structured (n1 n2 ad1 adots ad2 suffix : List Char)
    (hn1 : n1.all (fun c => !isDig c) = true)
    (hn2 : n2.all (fun c => !isDig c) = true)
    (ha1ne : ad1 ≠ []) (ha1 : ad1.all isDig = true)
    (hdots : adots.all (fun c => c == '.') = true)
    (ha2 : ad2.all isDig = true)
    (hshape : adots = [] → ad2 = [])
    (hsuf : ∀ c, suffix.head? = some c → isDig c = false ∧ (c == '.') = false) :
    tailMatch ((n1 ++ kwL ++ n2) ++ (ad1 ++ (adots ++ ad2 ++ suffix))) =
      some (ad1, adots, ad2) := by
  have hZ : ∀ c, (adots ++ ad2 ++ suffix).head? = some c → isDig c = false := by
    intro c hc
    cases adots with
    | cons x xs =>
      simp only [List.cons_append, List.head?_cons, Option.some.injEq] at hc
      have hx : (x == '.') = true := by
        simp only [List.all_cons, Bool.and_eq_true] at hdots
        exact hdots.1
      have hxe : x = '.' := by simpa using hx
      rw [← hc, hxe]
      rfl
    | nil =>
      have h2 : ad2 = [] := hshape rfl
      subst h2
      simp only [List.nil_append] at hc
      exact (hsuf c hc).1
  have hcore := tailMatch_core n1 n2 ad1 (adots ++ ad2 ++ suffix) hn1 hn2 ha1ne ha1 hZ
  have hdots1 : (adots ++ ad2 ++ suffix).takeWhile (fun c => c == '.') = adots := by
    rw [List.append_assoc]
    refine takeWhile_append_all _ _ _ hdots ?_
    intro c hc
    cases ad2 with
    | cons y ys =>
      simp only [List.cons_append, List.head?_cons, Option.some.injEq] at hc
      have hy : isDig y = true := by
        simp only [List.all_cons, Bool.and_eq_true] at ha2
        exact ha2.1
      rw [← hc]
      exact dig_ne_dot y hy
    | nil =>
      simp only [List.nil_append] at hc
      exact (hsuf c hc).2
  have hdrop : (adots ++ ad2 ++ suffix).drop adots.length = ad2 ++ suffix := by
    rw [List.append_assoc]
    exact List.drop_left _ _
  have hd2 : (ad2 ++ suffix).takeWhile isDig = ad2 := by
    refine takeWhile_append_all _ _ _ ha2 ?_
    intro c hc
    exact (hsuf c hc).1
  rw [hcore, hdots1, hdrop, hd2]

/-- The whole pattern at offset zero of a structured input. -/
theorem matchAt_structured (cU cD ws R4 : List Char)
    (a1 a2 b1 b2 c1 c2 e1 e2 f1 f2 : Char)
    (amt : List Char × List Char × List Char)
    (hcU : cU.length = 4) (hcUall : cU.all isUpperAZ = true)
    (hcD : cD.length = 4) (hcDall : cD.all isDig = true)
    (hws : ws ≠ []) (hwsall : ws.all (fun c => c == ' ') = true)
    (h1 : isDig a1 = true) (h2 : isDig a2 = true) (h3 : isDig b1 = true)
    (h4 : isDig b2 = true) (h5 : isDig c1 = true) (h6 : isDig c2 = true)
    (h7 : isDig e1 = true) (h8 : isDig e2 = true) (h9 : isDig f1 = true)
    (h10 : isDig f2 = true)
    (hR4 : tailMatch R4 = some amt) :
    matchAt (cU ++ (cD ++ (ws ++ (a1 :: a2 :: '.' :: b1 :: b2 :: '.' :: c1 :: c2 :: ' ' ::
        e1 :: e2 :: ':' :: f1 :: f2 :: R4)))) =
      some (cU ++ cD, (dd a1 a2, dd b1 b2, dd c1 c2, dd e1 e2, dd f1 f2), amt) := by
  have htc1 := takeCount_append isUpperAZ cU
    (cD ++ (ws ++ (a1 :: a2 :: '.' :: b1 :: b2 :: '.' :: c1 :: c2 :: ' ' ::
      e1 :: e2 :: ':' :: f1 :: f2 :: R4))) 4 hcU hcUall
  have htc2 := takeCount_append isDig cD
    (ws ++ (a1 :: a2 :: '.' :: b1 :: b2 :: '.' :: c1 :: c2 :: ' ' ::
      e1 :: e2 :: ':' :: f1 :: f2 :: R4)) 4 hcD hcDall
  have hsp : (ws ++ (a1 :: a2 :: '.' :: b1 :: b2 :: '.' :: c1 :: c2 :: ' ' ::
      e1 :: e2 :: ':' :: f1 :: f2 :: R4)).takeWhile (fun c => c == ' ') = ws := by
    refine takeWhile_append_all _ _ _ hwsall ?_
    intro c hc
    simp only [List.head?_cons, Option.some.injEq] at hc
    rw [← hc]
    exact dig_ne_space a1 h1
  have hspne : ws.isEmpty = false := by
    cases ws with
    | nil => exact absurd rfl hws
    | cons x xs => rfl
  have hdropsp : (ws ++ (a1 :: a2 :: '.' :: b1 :: b2 :: '.' :: c1 :: c2 :: ' ' ::
      e1 :: e2 :: ':' :: f1 :: f2 :: R4)).drop ws.length =
      a1 :: a2 :: '.' :: b1 :: b2 :: '.' :: c1 :: c2 :: ' ' ::
        e1 :: e2 :: ':' :: f1 :: f2 :: R4 := List.drop_left _ _
  have hdt : matchDT (a1 :: a2 :: '.' :: b1 :: b2 :: '.' :: c1 :: c2 :: ' ' ::
      e1 :: e2 :: ':' :: f1 :: f2 :: R4) =
      some ((dd a1 a2, dd b1 b2, dd c1 c2, dd e1 e2, dd f1 f2), R4) := by
    simp [matchDT, h1, h2, h3, h4, h5, h6, h7, h8, h9, h10]
  unfold matchAt
  rw [htc1]
  simp only [Option.some_bind]
  rw [htc2]
  simp only [Option.some_bind]
  rw [hsp, hspne]
  simp only [Bool.false_eq_true, if_false]
  rw [hdropsp, hdt]
  simp only [Option.some_bind]
  rw [hR4]
  rfl

/-- re.search returns the offset-zero match when there is one. -/
theorem search_of_matchAt (l : List Char)
    (g : List Char × (Nat × Nat × Nat × Nat × Nat) × (List Char × List Char × List Char))
    (h : matchAt l = some g) : search l = some g := by
  cases l with
  | nil => rw [search, h]
  | cons c t =>
    rw [search, h]
    rfl

theorem head_constraint_of_cons (x : Char) (xs : List Char)
    (hx1 : isDig x = false) (hx2 : (x == '.') = false) :
    ∀ c, (x :: xs).head? = some c → isDig c = false ∧ (c == '.') = false := by
  intro c hc
  simp only [List.head?_cons, Option.some.injEq] at hc
  rw [← hc]
  exact ⟨hx1, hx2⟩

/-- C7 counterexample: the claim quantifies over lines whose card and
date-time tokens are separated by whitespace and whose date-time token
is any DD.MM.YY HH:MM digit pattern.  A tab separator makes the pattern
(which accepts only spaces) fail to match, and an impossible month such
as 13 makes strptime raise ValueError, so on both inputs parse does not
return the claimed fields. -/
theorem claim_c7_counterexample :
    parse_sms ("VISA1234\t21.12.16 22:12 зарплаты 1".toList) = .error .attributeError ∧
    parse_sms ("VISA1234 21.13.16 22:12 зарплаты 1".toList) = .error .valueError := by
  refine ⟨?_, ?_⟩ <;> decide

/-- C7 (amended): for every input line of the form card token (exactly
4 uppercase letters and 4 digits), one or more space characters, a
DD.MM.YY HH:MM date-time token whose literal fields form a valid
date-time, a run of non-digits, the keyword, a run of non-digits, and an
amount token (digits, optionally followed by one dot and digits),
followed by a remainder opening with neither a digit nor a dot, parse
returns exactly that card, a date-time equal to the literal fields
interpreted as local naive time, and a decimal equal to the amount. -/
theorem claim_c7_amended
    (cU cD ws n1 n2 ad1 adots ad2 suffix : List Char)
    (a1 a2 b1 b2 c1 c2 e1 e2 f1 f2 : Char)
    (hcU : cU.length = 4) (hcUall : cU.all isUpperAZ = true)
    (hcD : cD.length = 4) (hcDall : cD.all isDig = true)
    (hws : ws ≠ []) (hwsall : ws.all (fun c => c == ' ') = true)
    (h1 : isDig a1 = true) (h2 : isDig a2 = true) (h3 : isDig b1 = true)
    (h4 : isDig b2 = true) (h5 : isDig c1 = true) (h6 : isDig c2 = true)
    (h7 : isDig e1 = true) (h8 : isDig e2 = true) (h9 : isDig f1 = true)
    (h10 : isDig f2 = true)
    (hn1 : n1.all (fun c => !isDig c) = true)
    (hn2 : n2.all (fun c => !isDig c) = true)
    (ha1ne : ad1 ≠ []) (ha1 : ad1.all isDig = true)
    (hdots : adots.all (fun c => c == '.') = true) (hdl : adots.length ≤ 1)
    (ha2 : ad2.all isDig = true) (hshape : adots = [] → ad2 = [])
    (hsuf : ∀ c, suffix.head? = some c → isDig c = false ∧ (c == '.') = false)
    (hmo1 : 1 ≤ dd b1 b2) (hmo2 : dd b1 b2 ≤ 12)
    (hday1 : 1 ≤ dd a1 a2)
    (hday2 : (dd a1 a2 : Int) ≤ daysInMonth (toYear (dd c1 c2)) (dd b1 b2))
    (hhr : dd e1 e2 ≤ 23) (hmin : dd f1 f2 ≤ 59) :
    parse_sms (cU ++ (cD ++ (ws ++ (a1 :: a2 :: '.' :: b1 :: b2 :: '.' :: c1 :: c2 :: ' ' ::
        e1 :: e2 :: ':' :: f1 :: f2 ::
        ((n1 ++ kwL ++ n2) ++ (ad1 ++ (adots ++ ad2 ++ suffix))))))) =
      .ok ⟨cU ++ cD,
           ⟨toYear (dd c1 c2), dd b1 b2, dd a1 a2, dd e1 e2, dd f1 f2⟩,
           (natOf ad1 : ℚ) + (natOf ad2 : ℚ) / 10 ^ ad2.length⟩ := by
  have htm := tailMatch_structured n1 n2 ad1 adots ad2 suffix hn1 hn2 ha1ne ha1
    hdots ha2 hshape hsuf
  have hma := matchAt_structured cU cD ws _ a1 a2 b1 b2 c1 c2 e1 e2 f1 f2 _
    hcU hcUall hcD hcDall hws hwsall h1 h2 h3 h4 h5 h6 h7 h8 h9 h10 htm
  have hse := search_of_matchAt _ _ hma
  have hck : checkDT (dd a1 a2) (dd b1 b2) (dd c1 c2) (dd e1 e2) (dd f1 f2) =
      .ok ⟨toYear (dd c1 c2), dd b1 b2, dd a1 a2, dd e1 e2, dd f1 f2⟩ := by
    unfold checkDT
    rw [if_pos]
    exact ⟨hmo1, hmo2, hday1, hday2, hhr, hmin⟩
  have hfv : floatVal ad1 adots ad2 =
      .ok ((natOf ad1 : ℚ) + (natOf ad2 : ℚ) / 10 ^ ad2.length) := by
    unfold floatVal
    rw [if_pos hdl, mkRat_decimal]
  unfold parse_sms
  rw [hse]
  dsimp only
  rw [hck, hfv]
  rfl

/-- C7 witness: scenario A, the repository's own test SMS. -/
theorem claim_c7_witness :
    parse_sms ("VISA1234 21.12.16 22:12 зачисление зарплаты 12345.57р Баланс: 16063.28р".toList) =
      .ok ⟨"VISA1234".toList, ⟨2016, 12, 21, 22, 12⟩, mkRat 1234557 100⟩ := by
  have h := claim_c7_amended ['V', 'I', 'S', 'A'] ['1', '2', '3', '4'] [' ']
    (" зачисление ".toList) [' '] ("12345".toList) ['.'] ("57".toList)
    ("р Баланс: 16063.28р".toList) '2' '1' '1' '2' '1' '6' '2' '2' '1' '2'
    (by decide) (by decide) (by decide) (by decide) (by decide) (by decide)
    (by decide) (by decide) (by decide) (by decide) (by decide) (by decide)
    (by decide) (by decide) (by decide) (by decide) (by decide) (by decide)
    (by decide) (by decide) (by decide) (by decide) (by decide) (by decide)
    (head_constraint_of_cons 'р' _ (by decide) (by decide))
    (by decide) (by decide) (by decide) (by decide) (by decide) (by decide)
  have heq : ("VISA1234 21.12.16 22:12 зачисление зарплаты 12345.57р Баланс: 16063.28р".toList) =
      (['V', 'I', 'S', 'A'] ++ (['1', '2', '3', '4'] ++ ([' '] ++
        ('2' :: '1' :: '.' :: '1' :: '2' :: '.' :: '1' :: '6' :: ' ' ::
          '2' :: '2' :: ':' :: '1' :: '2' ::
          (((" зачисление ".toList) ++ kwL ++ [' ']) ++
            (("12345".toList) ++ (['.'] ++ ("57".toList) ++ ("р Баланс: 16063.28р".toList)))))))) := by
    decide
  have hamt : ((natOf ("12345".toList) : ℚ) +
      (natOf ("57".toList) : ℚ) / 10 ^ (("57".toList)).length) = mkRat 1234557 100 := by
    rw [(by decide : natOf ("12345".toList) = 12345),
        (by decide : natOf ("57".toList) = 57),
        (by decide : (("57".toList)).length = 2)]
    rw [← mkRat_decimal]
    decide
  rw [heq, h, hamt]
  decide

theorem daysInMonth_ge28 (y m : Int) (h3 : 1 ≤ m) (h4 : m ≤ 12) :
    28 ≤ daysInMonth y m := by
  unfold daysInMonth
  split_ifs <;> omega

theorem mkDT_ok (y m D : Int) (h1 : 1 ≤ y) (h2 : y ≤ 9999) (h3 : 1 ≤ m)
    (h4 : m ≤ 12) (h5 : 1 ≤ D) (h6 : D ≤ 28) :
    mkDT y m D = .ok ⟨y, m, D, 0, 0⟩ := by
  have hd := daysInMonth_ge28 y m h3 h4
  unfold mkDT
  rw [if_pos]
  exact ⟨h1, h2, h3, h4, h5, by omega⟩

/-- C2 counterexample: with cutoff 25, the zero-token wage query at
2017-06-10 resolves [25 Apr 2017, 25 May 2017), not the claimed
[25 May 2017, 25 Jun 2017), and at 2017-06-30 it resolves
[25 May 2017, 25 Jun 2017), not the claimed [25 Jun 2017, 25 Jul 2017). -/
theorem claim_c2_counterexample :
    currentPeriod ⟨2017, 6, 10, 0, 0⟩ 25 ≠
      .ok (⟨2017, 5, 25, 0, 0⟩, ⟨2017, 6, 25, 0, 0⟩) ∧
    currentPeriod ⟨2017, 6, 30, 0, 0⟩ 25 ≠
      .ok (⟨2017, 6, 25, 0, 0⟩, ⟨2017, 7, 25, 0, 0⟩) := by
  refine ⟨?_, ?_⟩ <;> decide

/-- C2 (amended): for a cutoff day D between 1 and 28 and any now whose
month is valid and which is not a January date on or before the cutoff
(where the code raises), the zero-token wage query resolves
[D of (current month − 1), D of current month) when now.day > D, and
[D of (current month − 2), D of (current month − 1)) otherwise, with the
month subtraction wrapping into the previous year. -/
theorem claim_c2_amended (now : DateTime) (D : Int)
    (hD1 : 1 ≤ D) (hD2 : D ≤ 28)
    (hm1 : 1 ≤ now.month) (hm2 : now.month ≤ 12)
    (hy1 : 2 ≤ now.year) (hy2 : now.year ≤ 9998)
    (hjan : ¬(now.month = 1 ∧ now.day ≤ D)) :
    currentPeriod now D =
      if now.day > D then
        .ok (⟨(monthSub now.year now.month 1).1, (monthSub now.year now.month 1).2, D, 0, 0⟩,
             ⟨now.year, now.month, D, 0, 0⟩)
      else
        .ok (⟨(monthSub now.year now.month 2).1, (monthSub now.year now.month 2).2, D, 0, 0⟩,
             ⟨(monthSub now.year now.month 1).1, (monthSub now.year now.month 1).2, D, 0, 0⟩) := by
  by_cases hgt : now.day > D
  · rw [if_pos hgt]
    by_cases h1 : now.month = 1
    · have e1 : mkDT (now.year - 1) 12 D = .ok ⟨now.year - 1, 12, D, 0, 0⟩ :=
        mkDT_ok _ _ _ (by omega) (by omega) (by omega) (by omega) hD1 hD2
      have e2 : mkDT now.year 1 D = .ok ⟨now.year, 1, D, 0, 0⟩ :=
        mkDT_ok _ _ _ (by omega) (by omega) (by omega) (by omega) hD1 hD2
      simp [currentPeriod, hgt, h1, e1, e2, monthSub]
      rfl
    · have e1 : mkDT now.year (now.month - 1) D = .ok ⟨now.year, now.month - 1, D, 0, 0⟩ :=
        mkDT_ok _ _ _ (by omega) (by omega) (by omega) (by omega) hD1 hD2
      have e2 : mkDT now.year now.month D = .ok ⟨now.year, now.month, D, 0, 0⟩ :=
        mkDT_ok _ _ _ (by omega) (by omega) hm1 hm2 hD1 hD2
      simp [currentPeriod, hgt, h1, e1, e2, monthSub]
      rfl
  · rw [if_neg hgt]
    have hm1' : now.month ≠ 1 := by
      intro hc
      exact hjan ⟨hc, by omega⟩
    by_cases h2 : now.month = 2
    · have e1 : mkDT (now.year - 1) 12 D = .ok ⟨now.year - 1, 12, D, 0, 0⟩ :=
        mkDT_ok _ _ _ (by omega) (by omega) (by omega) (by omega) hD1 hD2
      have e2 : mkDT now.year 1 D = .ok ⟨now.year, 1, D, 0, 0⟩ :=
        mkDT_ok _ _ _ (by omega) (by omega) (by omega) (by omega) hD1 hD2
      simp [currentPeriod, hgt, h2, e1, e2, monthSub]
      rfl
    · have e1 : mkDT now.year (now.month - 1 - 1) D =
          .ok ⟨now.year, now.month - 1 - 1, D, 0, 0⟩ :=
        mkDT_ok _ _ _ (by omega) (by omega) (by omega) (by omega) hD1 hD2
      have e2 : mkDT now.year (now.month - 1) D = .ok ⟨now.year, now.month - 1, D, 0, 0⟩ :=
        mkDT_ok _ _ _ (by omega) (by omega) (by omega) (by omega) hD1 hD2
      have hne : ¬(now.month - 1 = 1) := by omega
      simp [currentPeriod, hgt, hne, e1, e2, monthSub, hm1', h2]
      rfl

/-- C2 witness: cutoff 25, now 2017-06-10 resolves the window
[25 Apr 2017, 25 May 2017). -/
theorem claim_c2_witness :
    currentPeriod ⟨2017, 6, 10, 0, 0⟩ 25 =
      .ok (⟨2017, 4, 25, 0, 0⟩, ⟨2017, 5, 25, 0, 0⟩) := by
  have h := claim_c2_amended ⟨2017, 6, 10, 0, 0⟩ 25 (by decide) (by decide)
    (by decide) (by decide) (by decide) (by decide) (by decide)
  rw [h]
  decide

/-- C4 counterexample: wage_calc uses BETWEEN, which includes the end
point, so a transaction stamped exactly at the window's end is counted,
while the spec's half-open sum excludes it. -/
theorem claim_c4_counterexample :
    wage_calc [⟨1, [], [], ⟨2017, 5, 25, 0, 0⟩, 5⟩] 1 ⟨2017, 4, 25, 0, 0⟩ ⟨2017, 5, 25, 0, 0⟩ ≠
      sum_amount_spec [⟨1, [], [], ⟨2017, 5, 25, 0, 0⟩, 5⟩] 1
        ⟨2017, 4, 25, 0, 0⟩ ⟨2017, 5, 25, 0, 0⟩ := by
  have hf : ([(⟨1, [], [], ⟨2017, 5, 25, 0, 0⟩, 5⟩ : Row)]).filter
      (fun r => r.chatId == 1 && dtLeB ⟨2017, 4, 25, 0, 0⟩ r.dt &&
        dtLeB r.dt ⟨2017, 5, 25, 0, 0⟩) = [⟨1, [], [], ⟨2017, 5, 25, 0, 0⟩, 5⟩] := by
    decide
  have hg : ([(⟨1, [], [], ⟨2017, 5, 25, 0, 0⟩, 5⟩ : Row)]).filter
      (fun r => r.chatId == 1 && dtLeB ⟨2017, 4, 25, 0, 0⟩ r.dt &&
        dtLtB r.dt ⟨2017, 5, 25, 0, 0⟩) = [] := by
    decide
  simp only [wage_calc, sum_amount_spec]
  rw [hf, hg]
  simp

/-- C4 (amended): wage_calc returns the sum of the owner's transaction
amounts with timestamp in the closed interval [start, end] — a
transaction stamped exactly at end is included — and, being total on ℚ,
returns the defined value zero when no rows match. -/
theorem claim_c4_amended (data : List Row) (cid : Int) (sd ed : DateTime) :
    wage_calc data cid sd ed = sum_amount_incl data cid sd ed := by
  simp only [wage_calc, sum_amount_incl]
  by_cases h : (data.filter (fun r => r.chatId == cid && dtLeB sd r.dt &&
      dtLeB r.dt ed)).isEmpty
  · rw [if_pos h]
    have hnil : data.filter (fun r => r.chatId == cid && dtLeB sd r.dt &&
        dtLeB r.dt ed) = [] := by
      rwa [List.isEmpty_iff] at h
    rw [hnil]
    rfl
  · rw [if_neg h]
    dsimp only
    split_ifs with hv
    · exact hv.symm
    · rfl

/-- C5: the claim says every validated month token resolves without an
unhandled exception, month 0 wrapping to December.  The code only
special-cases month 12 (and month 1 in the zero-token branch), so the
explicit month tokens 1 and 13, and the pair (1, 2017), all reach
datetime with month 0 or 13 and raise ValueError out of the handler. -/
theorem claim_c5_month_token_valueerror :
    wage_period ["1"] ⟨2017, 6, 10, 0, 0⟩ 25 = .error .valueError ∧
    wage_period ["13"] ⟨2017, 6, 10, 0, 0⟩ 25 = .error .valueError ∧
    wage_period ["1", "2017"] ⟨2017, 6, 10, 0, 0⟩ 25 = .error .valueError := by
  refine ⟨?_, ?_, ?_⟩ <;> decide

/-- C8: insertion is idempotent on the unique five-column tuple.  On any
table state where the UNIQUE constraint holds for this tuple (at most one
copy present), inserting the transaction and then re-inserting the
identical tuple is a silent no-op that leaves exactly one matching row. -/
theorem claim_c8_insert_idempotent (db : DB) (cid : Int) (un : List Char) (p : Sms)
    (h : db.data.count (mkRow cid un p) ≤ 1) :
    insert_transaction (insert_transaction db cid un p) cid un p =
      insert_transaction db cid un p ∧
    (insert_transaction db cid un p).data.count (mkRow cid un p) = 1 := by
  by_cases hmem : mkRow cid un p ∈ db.data
  · have h1 : insert_transaction db cid un p = db := by
      unfold insert_transaction
      rw [if_pos hmem]
    have hpos : 0 < db.data.count (mkRow cid un p) := List.count_pos_iff.mpr hmem
    exact ⟨by rw [h1, h1], by rw [h1]; omega⟩
  · have h0 : db.data.count (mkRow cid un p) = 0 := List.count_eq_zero.mpr hmem
    have h1 : insert_transaction db cid un p =
        { db with data := db.data ++ [mkRow cid un p] } := by
      unfold insert_transaction
      rw [if_neg hmem]
    have hmem2 : mkRow cid un p ∈
        ({ db with data := db.data ++ [mkRow cid un p] } : DB).data := by simp
    have h2 : insert_transaction { db with data := db.data ++ [mkRow cid un p] } cid un p =
        { db with data := db.data ++ [mkRow cid un p] } := by
      unfold insert_transaction
      rw [if_pos hmem2]
    refine ⟨by rw [h1, h2], ?_⟩
    rw [h1]
    simp only [List.count_append, h0]
    simp

/-- C8 witness: a concrete transaction inserted twice into the empty
store. -/
theorem claim_c8_witness :
    insert_transaction (insert_transaction ⟨[], [], []⟩ 7 []
        ⟨"VISA1234".toList, ⟨2016, 12, 21, 22, 12⟩, 5⟩) 7 []
        ⟨"VISA1234".toList, ⟨2016, 12, 21, 22, 12⟩, 5⟩ =
      insert_transaction ⟨[], [], []⟩ 7 [] ⟨"VISA1234".toList, ⟨2016, 12, 21, 22, 12⟩, 5⟩ ∧
    (insert_transaction ⟨[], [], []⟩ 7 []
        ⟨"VISA1234".toList, ⟨2016, 12, 21, 22, 12⟩, 5⟩).data.count
      (mkRow 7 [] ⟨"VISA1234".toList, ⟨2016, 12, 21, 22, 12⟩, 5⟩) = 1 :=
  claim_c8_insert_idempotent ⟨[], [], []⟩ 7 []
    ⟨"VISA1234".toList, ⟨2016, 12, 21, 22, 12⟩, 5⟩ (by decide)

/-- C9: the claim says the name↔owner lookups return a not-found result
rather than raising.  In the code cursor.fetchone() yields None on no
match, None's subscript raises TypeError, and the surrounding except
clause catches only IndexError, so with no matching row both lookups
raise TypeError instead of returning a not-found value. -/
theorem claim_c9_lookup_raises_typeerror (db : DB) (user : List Char) (cid : Int)
    (h1 : db.data.filter (fun r => r.name == user) = [])
    (h2 : db.data.filter (fun r => r.chatId == cid) = []) :
    chatid_from_name db user = .error .typeError ∧
    name_from_chatid db cid = .error .typeError := by
  constructor
  · unfold chatid_from_name
    rw [h1]
    rfl
  · unfold name_from_chatid
    rw [h2]
    rfl

/-- C9 witness: lookups against the empty store. -/
theorem claim_c9_witness :
    chatid_from_name ⟨[], [], []⟩ ("nobody".toList) = .error .typeError ∧
    name_from_chatid ⟨[], [], []⟩ 12345 = .error .typeError :=
  claim_c9_lookup_raises_typeerror ⟨[], [], []⟩ ("nobody".toList) 12345 rfl rfl

/-- C10: the DROPDB callback performs the whole-store purge with no
check of the pressing user against the admin allow-list — its result
does not depend on the admin list or the user at all — while admin
membership is enforced only by the command that shows the confirmation
prompt, which refuses non-admins. -/
theorem claim_c10_purge_callback_unrestricted (adminList : List Int) (userId : Int)
    (db : DB) (h : userId ∉ adminList) :
    (purgedb_commence adminList userId db dropTok).data = [] ∧
    purge_db_cmd adminList userId = .refused ∧
    (∀ al2 u2, purgedb_commence al2 u2 db dropTok =
      purgedb_commence adminList userId db dropTok) := by
  refine ⟨?_, ?_, ?_⟩
  · rfl
  · unfold purge_db_cmd
    rw [if_neg h]
  · intro al2 u2
    rfl

/-- C10 witness: a non-admin user's button press purges a non-empty
store, and changing the admin list and user does not change the
callback's effect. -/
theorem claim_c10_witness :
    (purgedb_commence [1] 2 ⟨[⟨2, [], [], ⟨2017, 1, 1, 0, 0⟩, 1⟩], [], []⟩ dropTok).data = [] ∧
    purge_db_cmd [1] 2 = .refused ∧
    purgedb_commence [] 999 ⟨[⟨2, [], [], ⟨2017, 1, 1, 0, 0⟩, 1⟩], [], []⟩ dropTok =
      purgedb_commence [1] 2 ⟨[⟨2, [], [], ⟨2017, 1, 1, 0, 0⟩, 1⟩], [], []⟩ dropTok :=
  ⟨(claim_c10_purge_callback_unrestricted [1] 2
      ⟨[⟨2, [], [], ⟨2017, 1, 1, 0, 0⟩, 1⟩], [], []⟩ (by decide)).1,
   (claim_c10_purge_callback_unrestricted [1] 2
      ⟨[⟨2, [], [], ⟨2017, 1, 1, 0, 0⟩, 1⟩], [], []⟩ (by decide)).2.1,
   (claim_c10_purge_callback_unrestricted [1] 2
      ⟨[⟨2, [], [], ⟨2017, 1, 1, 0, 0⟩, 1⟩], [], []⟩ (by decide)).2.2 [] 999⟩

/-- C1: the claim says an accepted live SMS is inserted and then every
notify subscriber is messaged.  In the code the handler first calls
new_transaction, whose comma-joined WHERE clause is malformed sqlite, so
cursor.execute raises OperationalError: for every successfully parsed
SMS whose card is not ignored and whose tuple is not yet stored, the
handler aborts with that error, sends no message at all, inserts
nothing, and notifies nobody. -/
theorem claim_c1_sms_aborts_before_insert (db : DB) (cid : Int) (un text : List Char)
    (nowDT : DateTime) (D : Int) (p : Sms)
    (hp : parse_sms text = .ok p)
    (hig : p.card ∉ show_ignored_cards db cid)
    (hnew : mkRow cid un p ∉ db.data) :
    sms db cid un text nowDT D = ⟨[], db, some .operationalError⟩ := by
  have hnt : new_transaction db cid un p = .error .operationalError := rfl
  unfold sms
  rw [hp]
  dsimp only
  rw [if_neg hig, hnt]

/-- C1 witness: the repository's test SMS arriving at an empty store
with one notify subscriber on file. -/
theorem claim_c1_witness :
    sms ⟨[], [], [(7, 99)]⟩ 7 ("alice".toList)
      ("VISA1234 21.12.16 22:12 зачисление зарплаты 12345.57р Баланс: 16063.28р".toList)
      ⟨2017, 1, 1, 0, 0⟩ 25 =
      ⟨[], ⟨[], [], [(7, 99)]⟩, some .operationalError⟩ :=
  claim_c1_sms_aborts_before_insert ⟨[], [], [(7, 99)]⟩ 7 ("alice".toList)
    ("VISA1234 21.12.16 22:12 зачисление зарплаты 12345.57р Баланс: 16063.28р".toList)
    ⟨2017, 1, 1, 0, 0⟩ 25
    ⟨"VISA1234".toList, ⟨2016, 12, 21, 22, 12⟩, mkRat 1234557 100⟩
    (by decide) (by decide) (by decide)

/-- C3: a parsed transaction whose card is in the submitting owner's
ignored set leads to the owner being warned and no row being inserted,
in both paths: the live handler sends the ignored-card warning and
leaves the store unchanged (it then aborts in the broken duplicate check
before ever reaching the insert), and the CSV loop skips the insert for
such a line, bumping the ignored counter (reported in the final batch
summary). -/
theorem claim_c3_ignored_card_warned_not_inserted (db : DB) (cid : Int)
    (un text : List Char) (nowDT : DateTime) (D : Int) (p : Sms)
    (st : CsvSt) (line : List Char) (q : Sms)
    (hp : parse_sms text = .ok p)
    (hig : p.card ∈ show_ignored_cards db cid)
    (hq : parse_sms (lastField line) = .ok q)
    (hqig : q.card ∈ show_ignored_cards st.db cid) :
    (Msg.ignoredWarn ∈ (sms db cid un text nowDT D).msgs ∧
      (sms db cid un text nowDT D).db = db) ∧
    csvLine cid un st line = .ok ⟨st.db, st.i + 1, st.j + 1, st.k + 1⟩ := by
  constructor
  · have hs : sms db cid un text nowDT D = ⟨[.ignoredWarn], db, some .operationalError⟩ := by
      have hnt : new_transaction db cid un p = .error .operationalError := rfl
      unfold sms
      rw [hp]
      dsimp only
      rw [if_pos hig, hnt]
    rw [hs]
    exact ⟨by simp, rfl⟩
  · unfold csvLine
    rw [hq]
    dsimp only
    rw [if_neg (not_not_intro hqig)]

/-- C3 witness: the test SMS submitted by an owner who has its card on
the ignored list, both live and as a one-line CSV. -/
theorem claim_c3_witness :
    (Msg.ignoredWarn ∈ (sms ⟨[], [(7, "VISA1234".toList)], []⟩ 7 ("alice".toList)
        ("VISA1234 21.12.16 22:12 зачисление зарплаты 12345.57р Баланс: 16063.28р".toList)
        ⟨2017, 1, 1, 0, 0⟩ 25).msgs ∧
      (sms ⟨[], [(7, "VISA1234".toList)], []⟩ 7 ("alice".toList)
        ("VISA1234 21.12.16 22:12 зачисление зарплаты 12345.57р Баланс: 16063.28р".toList)
        ⟨2017, 1, 1, 0, 0⟩ 25).db = ⟨[], [(7, "VISA1234".toList)], []⟩) ∧
    csvLine 7 ("alice".toList) ⟨⟨[], [(7, "VISA1234".toList)], []⟩, 0, 0, 0⟩
      ("2016-12-21,VISA1234 21.12.16 22:12 зачисление зарплаты 12345.57р".toList) =
      .ok ⟨⟨[], [(7, "VISA1234".toList)], []⟩, 1, 1, 1⟩ :=
  claim_c3_ignored_card_warned_not_inserted ⟨[], [(7, "VISA1234".toList)], []⟩ 7
    ("alice".toList)
    ("VISA1234 21.12.16 22:12 зачисление зарплаты 12345.57р Баланс: 16063.28р".toList)
    ⟨2017, 1, 1, 0, 0⟩ 25 ⟨"VISA1234".toList, ⟨2016, 12, 21, 22, 12⟩, mkRat 1234557 100⟩
    ⟨⟨[], [(7, "VISA1234".toList)], []⟩, 0, 0, 0⟩
    ("2016-12-21,VISA1234 21.12.16 22:12 зачисление зарплаты 12345.57р".toList)
    ⟨"VISA1234".toList, ⟨2016, 12, 21, 22, 12⟩, mkRat 1234557 100⟩
    (by decide) (by decide) (by decide) (by decide)

theorem checkDT_error_shape (d mo yy hh mi : Nat) (e : PyErr)
    (h : checkDT d mo yy hh mi = .error e) : e = .valueError := by
  unfold checkDT at h
  split_ifs at h
  injection h with h2
  exact h2.symm

theorem floatVal_error_shape (d1 dots d2 : List Char) (e : PyErr)
    (h : floatVal d1 dots d2 = .error e) : e = .valueError := by
  unfold floatVal at h
  split_ifs at h
  injection h with h2
  exact h2.symm

/-- Unfolding of parse_sms on a successful search. -/
theorem parse_sms_eq_of_search (text card : List Char) (d mo yy hh mi : Nat)
    (d1 dots d2 : List Char)
    (hs : search text = some (card, (d, mo, yy, hh, mi), (d1, dots, d2))) :
    parse_sms text = (do
      let dt ← checkDT d mo yy hh mi
      let amt ← floatVal d1 dots d2
      pure ⟨card, dt, amt⟩) := by
  unfold parse_sms
  rw [hs]

/-- Unfolding of parse_sms on a failed search. -/
theorem parse_sms_eq_of_search_none (text : List Char)
    (hs : search text = none) :
    parse_sms text = .error .attributeError := by
  unfold parse_sms
  rw [hs]

/-- The only exceptions parse_sms can raise are AttributeError (no
match) and ValueError (strptime or float). -/
theorem parse_sms_error_shape (text : List Char) (e : PyErr)
    (h : parse_sms text = .error e) :
    e = .attributeError ∨ e = .valueError := by
  cases hs : search text with
  | none =>
    rw [parse_sms_eq_of_search_none text hs] at h
    injection h with h2
    exact Or.inl h2.symm
  | some g =>
    obtain ⟨card, ⟨d, mo, yy, hh, mi⟩, d1, dots, d2⟩ := g
    rw [parse_sms_eq_of_search text card d mo yy hh mi d1 dots d2 hs] at h
    cases hck : checkDT d mo yy hh mi with
    | error e2 =>
      rw [hck] at h
      have he2 := checkDT_error_shape d mo yy hh mi e2 hck
      have heq : (Except.error e2 : Except PyErr Sms) = .error e := h
      simp only [Except.error.injEq] at heq
      exact Or.inr (heq ▸ he2)
    | ok dt =>
      rw [hck] at h
      cases hfv : floatVal d1 dots d2 with
      | error e3 =>
        rw [hfv] at h
        have he3 := floatVal_error_shape d1 dots d2 e3 hfv
        have heq : (Except.error e3 : Except PyErr Sms) = .error e := h
        simp only [Except.error.injEq] at heq
        exact Or.inr (heq ▸ he3)
      | ok amt =>
        rw [hfv] at h
        have heq : (Except.ok (⟨card, dt, amt⟩ : Sms) : Except PyErr Sms) = .error e := h
        simp at heq

/-- Inserting a transaction touches only the data table, never the
ignored-cards table. -/
theorem show_ignored_insert (db : DB) (cid cid2 : Int) (un : List Char) (p : Sms) :
    show_ignored_cards (insert_transaction db cid2 un p) cid = show_ignored_cards db cid := by
  unfold insert_transaction
  split <;> rfl

/-- The CSV loop, on a batch where no line raises ValueError: it
completes, preserves the ignored set, counts every line in j, every
parsed line in i, and every parsed-and-ignored line in k. -/
theorem csvRun_counts (cid : Int) (un : List Char) (lines : List (List Char)) :
    ∀ (st : CsvSt) (ig : List (List Char)),
      show_ignored_cards st.db cid = ig →
      (∀ l ∈ lines, parse_sms (lastField l) ≠ .error .valueError) →
      ∃ st2, csvRun cid un lines st = .ok st2 ∧
        show_ignored_cards st2.db cid = ig ∧
        st2.j = st.j + lines.length ∧
        st2.i = st.i + lines.countP lineParsed ∧
        st2.k = st.k + lines.countP (lineIgnored ig) := by
  induction lines with
  | nil =>
    intro st ig hig hval
    exact ⟨st, rfl, hig, by simp, by simp, by simp⟩
  | cons l t ih =>
    intro st ig hig hval
    have hvl := hval l (List.mem_cons_self l t)
    have hvt : ∀ l2 ∈ t, parse_sms (lastField l2) ≠ .error .valueError :=
      fun l2 h2 => hval l2 (List.mem_cons_of_mem l h2)
    cases hp : parse_sms (lastField l) with
    | error e =>
      rcases parse_sms_error_shape _ e hp with he | he
      · subst he
        have hstep : csvLine cid un st l = .ok { st with j := st.j + 1 } := by
          unfold csvLine
          rw [hp]
        have hlp : lineParsed l = false := by
          unfold lineParsed
          rw [hp]
        have hli : lineIgnored ig l = false := by
          unfold lineIgnored
          rw [hp]
        obtain ⟨st2, h1, h2, h3, h4, h5⟩ := ih { st with j := st.j + 1 } ig hig hvt
        refine ⟨st2, ?_, h2, ?_, ?_, ?_⟩
        · show (l :: t).foldlM (csvLine cid un) st = .ok st2
          rw [List.foldlM_cons, hstep]
          exact h1
        · rw [List.length_cons]
          simp at h3 ⊢
          omega
        · rw [List.countP_cons, hlp]
          simp at h4 ⊢
          omega
        · rw [List.countP_cons, hli]
          simp at h5 ⊢
          omega
      · rw [he] at hp
        exact absurd hp hvl
    | ok q =>
      have hlp : lineParsed l = true := by
        unfold lineParsed
        rw [hp]
      by_cases hqi : q.card ∈ show_ignored_cards st.db cid
      · have hli : lineIgnored ig l = true := by
          unfold lineIgnored
          rw [hp, ← hig]
          exact decide_eq_true hqi
        have hstep : csvLine cid un st l =
            .ok { st with k := st.k + 1, i := st.i + 1, j := st.j + 1 } := by
          unfold csvLine
          rw [hp]
          dsimp only
          rw [if_neg (not_not_intro hqi)]
        obtain ⟨st2, h1, h2, h3, h4, h5⟩ :=
          ih { st with k := st.k + 1, i := st.i + 1, j := st.j + 1 } ig hig hvt
        refine ⟨st2, ?_, h2, ?_, ?_, ?_⟩
        · show (l :: t).foldlM (csvLine cid un) st = .ok st2
          rw [List.foldlM_cons, hstep]
          exact h1
        · rw [List.length_cons]
          simp at h3 ⊢
          omega
        · rw [List.countP_cons, hlp]
          simp at h4 ⊢
          omega
        · rw [List.countP_cons, hli]
          simp at h5 ⊢
          omega
      · have hli : lineIgnored ig l = false := by
          unfold lineIgnored
          rw [hp, ← hig]
          exact decide_eq_false hqi
        have hstep : csvLine cid un st l =
            .ok { st with db := insert_transaction st.db cid un q,
                          i := st.i + 1, j := st.j + 1 } := by
          unfold csvLine
          rw [hp]
          dsimp only
          rw [if_pos hqi]
        have hig2 : show_ignored_cards
            ({ st with db := insert_transaction st.db cid un q,
                       i := st.i + 1, j := st.j + 1 } : CsvSt).db cid = ig := by
          show show_ignored_cards (insert_transaction st.db cid un q) cid = ig
          rw [show_ignored_insert]
          exact hig
        obtain ⟨st2, h1, h2, h3, h4, h5⟩ :=
          ih { st with db := insert_transaction st.db cid un q,
                       i := st.i + 1, j := st.j + 1 } ig hig2 hvt
        refine ⟨st2, ?_, h2, ?_, ?_, ?_⟩
        · show (l :: t).foldlM (csvLine cid un) st = .ok st2
          rw [List.foldlM_cons, hstep]
          exact h1
        · rw [List.length_cons]
          simp at h3 ⊢
          omega
        · rw [List.countP_cons, hlp]
          simp at h4 ⊢
          omega
        · rw [List.countP_cons, hli]
          simp at h5 ⊢
          omega

/-- C6 counterexample: a one-line batch whose card is on the ignored
list.  The line parses, the card is ignored, and the loop finishes with
i = 1, j = 1, k = 1: the ignored line incremented the parsed counter i,
where the claim requires it to stay 0. -/
theorem claim_c6_counterexample :
    parse_sms (lastField
        ("VISA1234 21.12.16 22:12 зачисление зарплаты 12345.57р Баланс: 16063.28р".toList)) =
      .ok ⟨"VISA1234".toList, ⟨2016, 12, 21, 22, 12⟩, mkRat 1234557 100⟩ ∧
    ("VISA1234".toList : List Char) ∈
      show_ignored_cards ⟨[], [(7, "VISA1234".toList)], []⟩ 7 ∧
    csvRun 7 []
      ["VISA1234 21.12.16 22:12 зачисление зарплаты 12345.57р Баланс: 16063.28р".toList]
      ⟨⟨[], [(7, "VISA1234".toList)], []⟩, 0, 0, 0⟩ =
      .ok ⟨⟨[], [(7, "VISA1234".toList)], []⟩, 1, 1, 1⟩ ∧
    (1 : Nat) ≠ 0 := by
  refine ⟨by decide, by decide, by decide, by decide⟩

/-- C6 (amended): on a batch where no line aborts with ValueError, the
CSV loop reports three counters: the total counter counts every line,
a line that fails to parse increments only the total counter, and a
parsed line whose card is ignored increments both the ignored counter
and the parsed counter — the parsed counter counts every successfully
parsed line, ignored ones included. -/
theorem claim_c6_amended (cid : Int) (un : List Char) (lines : List (List Char))
    (st : CsvSt) (ig : List (List Char))
    (hig : show_ignored_cards st.db cid = ig)
    (hval : ∀ l ∈ lines, parse_sms (lastField l) ≠ .error .valueError) :
    (csvRun cid un lines st).map (fun s => (s.j, s.i, s.k)) =
      .ok (st.j + lines.length, st.i + lines.countP lineParsed,
           st.k + lines.countP (lineIgnored ig)) := by
  obtain ⟨st2, h1, _, h3, h4, h5⟩ := csvRun_counts cid un lines st ig hig hval
  rw [h1]
  dsimp only [Except.map]
  rw [h3, h4, h5]

/-- C6 witness: a three-line batch — one accepted line, one unparsable
line, one ignored-card line — reports 3 total, 2 parsed, 1 ignored. -/
theorem claim_c6_witness :
    (csvRun 7 []
      ["VISA9999 21.12.16 22:12 зарплаты 10".toList,
       "hello".toList,
       "VISA1234 21.12.16 22:12 зачисление зарплаты 12345.57р Баланс: 16063.28р".toList]
      ⟨⟨[], [(7, "VISA1234".toList)], []⟩, 0, 0, 0⟩).map (fun s => (s.j, s.i, s.k)) =
      .ok (3, 2, 1) := by
  have h := claim_c6_amended 7 []
    ["VISA9999 21.12.16 22:12 зарплаты 10".toList,
     "hello".toList,
     "VISA1234 21.12.16 22:12 зачисление зарплаты 12345.57р Баланс: 16063.28р".toList]
    ⟨⟨[], [(7, "VISA1234".toList)], []⟩, 0, 0, 0⟩ ["VISA1234".toList]
    (by decide) (by decide)
  have e1 : List.countP lineParsed
      ["VISA9999 21.12.16 22:12 зарплаты 10".toList,
       "hello".toList,
       "VISA1234 21.12.16 22:12 зачисление зарплаты 12345.57р Баланс: 16063.28р".toList] = 2 := by
    decide
  have e2 : List.countP (lineIgnored ["VISA1234".toList])
      ["VISA9999 21.12.16 22:12 зарплаты 10".toList,
       "hello".toList,
       "VISA1234 21.12.16 22:12 зачисление зарплаты 12345.57р Баланс: 16063.28р".toList] = 1 := by
    decide
  rw [e1, e2] at h
  simpa using h

end MoneyBot

